import Mathlib

/-!
Verification of the MelloOS kernel scheduling core.

This file is a shallow embedding, in Lean 4, of the data structures and
operations of `src/kernel/src/sched/priority.rs`, `src/kernel/src/sched/mod.rs`
and `src/kernel/src/sys/{syscall.rs, mod.rs}` of the MelloOS kernel, together
with theorems about the embedded operations.

Modelling conventions:
* `usize` and `TaskId` are modelled as `Nat` (indices stay far below 2^64);
  the `u64` tick arithmetic is modelled as `Nat` arithmetic reduced `% 2^64`
  exactly where the source performs `u64` additions.
* Rust `&mut self` methods become functions `State → Result × State`.
* A Rust `panic!` is modelled as an explicit `panicked` outcome value.
* Fixed-size Rust arrays (`[T; N]`) are modelled as Lean lists manipulated
  with `List.set` / `List.getD`, which mirrors indexed in-place writes.
-/

namespace MelloOS

/-- Task identifier: `pub type TaskId = usize` (from the scheduler sources). -/
abbrev TaskId := Nat

/-- `const MAX_TASKS: usize = 64` (priority.rs). -/
def MAX_TASKS : Nat := 64

/-- `2^64`, the modulus of Rust `u64` arithmetic. -/
def U64_MOD : Nat := 2 ^ 64

/-- `enum TaskPriority { Low = 0, Normal = 1, High = 2 }` (priority.rs). -/
inductive TaskPriority where
  | low
  | normal
  | high
deriving DecidableEq, Repr

/-- `TaskPriority::as_index` (priority.rs): the discriminant value. -/
def TaskPriority.as_index : TaskPriority → Nat
  | .low => 0
  | .normal => 1
  | .high => 2

/-- `struct TaskQueue` (priority.rs): circular buffer of task ids.
`tasks` models the `[TaskId; MAX_TASKS]` array (length 64). -/
structure TaskQueue where
  tasks : List TaskId
  head : Nat
  tail : Nat
  count : Nat
deriving DecidableEq, Repr

/-- `TaskQueue::new` (priority.rs). -/
def TaskQueue.new : TaskQueue :=
  { tasks := List.replicate MAX_TASKS 0, head := 0, tail := 0, count := 0 }

/-- `TaskQueue::push_back` (priority.rs): write at `tail`, advance `tail`
mod 64, bump `count`; fail when the queue already holds 64 entries. -/
def TaskQueue.push_back (q : TaskQueue) (task_id : TaskId) : Bool × TaskQueue :=
  if MAX_TASKS ≤ q.count then
    (false, q)
  else
    (true, { q with tasks := q.tasks.set q.tail task_id,
                    tail := (q.tail + 1) % MAX_TASKS,
                    count := q.count + 1 })

/-- `TaskQueue::pop_front` (priority.rs): read at `head`, advance `head`
mod 64, drop `count`; `none` when the queue is empty. -/
def TaskQueue.pop_front (q : TaskQueue) : Option TaskId × TaskQueue :=
  if q.count = 0 then
    (none, q)
  else
    (some (q.tasks.getD q.head 0),
     { q with head := (q.head + 1) % MAX_TASKS, count := q.count - 1 })

/-- `TaskQueue::len` (priority.rs). -/
def TaskQueue.len (q : TaskQueue) : Nat := q.count

/-- `TaskQueue::is_empty` (priority.rs). -/
def TaskQueue.isEmptyQ (q : TaskQueue) : Bool := q.count == 0

/-- `struct SleepingTask` (priority.rs). -/
structure SleepingTask where
  task_id : TaskId
  wake_tick : Nat
  priority : TaskPriority
  valid : Bool
deriving DecidableEq, Repr

/-- `SleepingTask::empty` (priority.rs). -/
def SleepingTask.emptySlot : SleepingTask :=
  { task_id := 0, wake_tick := 0, priority := .normal, valid := false }

/-- `struct PriorityScheduler` (priority.rs). `ready_queues` has length 3
(indexed Low = 0, Normal = 1, High = 2), `sleeping_tasks` has length 64,
`non_empty_queues` is the `u8` bitmap. -/
structure PriorityScheduler where
  ready_queues : List TaskQueue
  non_empty_queues : Nat
  sleeping_tasks : List SleepingTask
  current_tick : Nat
  preempt_disable_count : Nat
deriving DecidableEq, Repr

/-- `PriorityScheduler::new` (priority.rs). -/
def PriorityScheduler.new : PriorityScheduler :=
  { ready_queues := List.replicate 3 TaskQueue.new,
    non_empty_queues := 0,
    sleeping_tasks := List.replicate MAX_TASKS SleepingTask.emptySlot,
    current_tick := 0,
    preempt_disable_count := 0 }

/-- Read `self.ready_queues[i]`. -/
def getQ (s : PriorityScheduler) (i : Nat) : TaskQueue :=
  s.ready_queues.getD i TaskQueue.new

/-- `PriorityScheduler::enqueue_task` (priority.rs): push onto the queue of
`priority`; on success set bit `priority.as_index()` of the bitmap. -/
def PriorityScheduler.enqueue_task (s : PriorityScheduler) (task_id : TaskId)
    (priority : TaskPriority) : Bool × PriorityScheduler :=
  let index := priority.as_index
  let res := (getQ s index).push_back task_id
  let s1 := { s with ready_queues := s.ready_queues.set index res.2 }
  if res.1 then
    (true, { s1 with non_empty_queues := s1.non_empty_queues ||| (1 <<< index) })
  else
    (false, s1)

/-- The loop body of `PriorityScheduler::select_next` (priority.rs), run over
the priority indices in the order `[2, 1, 0]` (`for priority_index in
(0..=2).rev()`). A set bitmap bit selects a queue; on a successful pop the
bit is cleared when the queue became empty; on a failed pop (stale bit) the
bit is cleared and the scan continues. -/
def selectLoop : PriorityScheduler → List Nat → Option TaskId × PriorityScheduler
  | s, [] => (none, s)
  | s, p :: rest =>
    if (s.non_empty_queues &&& (1 <<< p)) ≠ 0 then
      let res := (getQ s p).pop_front
      let s1 := { s with ready_queues := s.ready_queues.set p res.2 }
      match res.1 with
      | some task_id =>
        if res.2.count = 0 then
          (some task_id,
           { s1 with non_empty_queues := s1.non_empty_queues &&& (255 ^^^ (1 <<< p)) })
        else
          (some task_id, s1)
      | none =>
        selectLoop
          { s1 with non_empty_queues := s1.non_empty_queues &&& (255 ^^^ (1 <<< p)) }
          rest
    else
      selectLoop s rest

/-- `PriorityScheduler::select_next` (priority.rs). -/
def PriorityScheduler.select_next (s : PriorityScheduler) :
    Option TaskId × PriorityScheduler :=
  selectLoop s [2, 1, 0]

/-- `PriorityScheduler::is_empty` (priority.rs). -/
def PriorityScheduler.isEmptySched (s : PriorityScheduler) : Bool :=
  s.non_empty_queues == 0

/-- `PriorityScheduler::len` (priority.rs). -/
def PriorityScheduler.lenSched (s : PriorityScheduler) : Nat :=
  (getQ s 0).len + (getQ s 1).len + (getQ s 2).len

/-- The slot-search loop of `PriorityScheduler::sleep_task` (priority.rs):
walk the sleep table, overwrite the first slot with `valid == false`;
`none` when every slot is valid. -/
def sleepLoop (task_id : TaskId) (wake_tick : Nat) (priority : TaskPriority) :
    List SleepingTask → Option (List SleepingTask)
  | [] => none
  | slot :: rest =>
    if slot.valid then
      match sleepLoop task_id wake_tick priority rest with
      | some rest2 => some (slot :: rest2)
      | none => none
    else
      some ({ task_id := task_id, wake_tick := wake_tick,
              priority := priority, valid := true } :: rest)

/-- `PriorityScheduler::sleep_task` (priority.rs): `wake_tick = current_tick
+ ticks` (u64 addition), stored in the first free slot; `false` when the
table is full. -/
def PriorityScheduler.sleep_task (s : PriorityScheduler) (task_id : TaskId)
    (ticks : Nat) (priority : TaskPriority) : Bool × PriorityScheduler :=
  let wake_tick := (s.current_tick + ticks) % U64_MOD
  match sleepLoop task_id wake_tick priority s.sleeping_tasks with
  | some slots => (true, { s with sleeping_tasks := slots })
  | none => (false, s)

/-- First pass of `PriorityScheduler::wake_sleeping_tasks` (priority.rs):
walk the sleep table with the running `wake_index`; every valid slot with
`wake_tick <= current_tick` is invalidated and counted, and (while
`wake_index < MAX_TASKS`) its `(task_id, priority)` pair is collected.
Returns (updated slots, collected pairs, woken count). -/
def wakeScan (tick : Nat) :
    Nat → List SleepingTask → List SleepingTask × List (TaskId × TaskPriority) × Nat
  | _, [] => ([], [], 0)
  | wi, slot :: rest =>
    if slot.valid = true ∧ slot.wake_tick ≤ tick then
      if wi < MAX_TASKS then
        let r := wakeScan tick (wi + 1) rest
        ({ slot with valid := false } :: r.1,
         (slot.task_id, slot.priority) :: r.2.1, r.2.2 + 1)
      else
        let r := wakeScan tick wi rest
        ({ slot with valid := false } :: r.1, r.2.1, r.2.2 + 1)
    else
      let r := wakeScan tick wi rest
      (slot :: r.1, r.2.1, r.2.2)

/-- Second pass of `PriorityScheduler::wake_sleeping_tasks` (priority.rs):
re-enqueue each collected `(task_id, priority)` pair in order. -/
def enqueueAll : PriorityScheduler → List (TaskId × TaskPriority) → PriorityScheduler
  | s, [] => s
  | s, (t, p) :: rest => enqueueAll (s.enqueue_task t p).2 rest

/-- `PriorityScheduler::wake_sleeping_tasks` (priority.rs). -/
def PriorityScheduler.wake_sleeping_tasks (s : PriorityScheduler) :
    Nat × PriorityScheduler :=
  let r := wakeScan s.current_tick 0 s.sleeping_tasks
  let s1 := { s with sleeping_tasks := r.1 }
  (r.2.2, enqueueAll s1 r.2.1)

/-- `PriorityScheduler::tick` (priority.rs): `self.current_tick += 1` (u64)
and nothing else. -/
def PriorityScheduler.tick (s : PriorityScheduler) : PriorityScheduler :=
  { s with current_tick := (s.current_tick + 1) % U64_MOD }

/-- `PriorityScheduler::preempt_disable` (priority.rs). -/
def PriorityScheduler.preempt_disable (s : PriorityScheduler) : PriorityScheduler :=
  { s with preempt_disable_count := s.preempt_disable_count + 1 }

/-- `PriorityScheduler::preempt_enable` (priority.rs): decrement only when
the counter is positive. -/
def PriorityScheduler.preempt_enable (s : PriorityScheduler) : PriorityScheduler :=
  if 0 < s.preempt_disable_count then
    { s with preempt_disable_count := s.preempt_disable_count - 1 }
  else
    s

/-- `PriorityScheduler::can_preempt` (priority.rs). -/
def PriorityScheduler.can_preempt (s : PriorityScheduler) : Bool :=
  s.preempt_disable_count == 0

/-! ### The public operations of `PriorityScheduler`, as a step function -/

/-- One public mutating operation of `PriorityScheduler` (priority.rs). -/
inductive SchedOp where
  | enqueue (task_id : TaskId) (priority : TaskPriority)
  | select
  | sleep (task_id : TaskId) (ticks : Nat) (priority : TaskPriority)
  | wake
  | tickOp
  | pdisable
  | penable
deriving DecidableEq, Repr

/-- Apply one public operation to the scheduler state. -/
def applyOp (s : PriorityScheduler) : SchedOp → PriorityScheduler
  | .enqueue t p => (s.enqueue_task t p).2
  | .select => s.select_next.2
  | .sleep t k p => (s.sleep_task t k p).2
  | .wake => s.wake_sleeping_tasks.2
  | .tickOp => s.tick
  | .pdisable => s.preempt_disable
  | .penable => s.preempt_enable

/-- Run a sequence of public operations. -/
def runOps (s : PriorityScheduler) (ops : List SchedOp) : PriorityScheduler :=
  ops.foldl applyOp s

/-- Fold `preempt_disable` (`true`) / `preempt_enable` (`false`) calls. -/
def runPreemptOps (s : PriorityScheduler) (ops : List Bool) : PriorityScheduler :=
  ops.foldl (fun s b => if b then s.preempt_disable else s.preempt_enable) s

/-! ### Invariants and observation functions -/

/-- The bitmap invariant of priority.rs: bit `i` of `non_empty_queues` is set
iff `ready_queues[i]` is non-empty, for each of the three priorities. The
bit test is written exactly as in `select_next`. -/
def bitmapOk (s : PriorityScheduler) : Prop :=
  ∀ i : Fin 3, ((s.non_empty_queues &&& (1 <<< i.val)) ≠ 0 ↔ (getQ s i.val).count ≠ 0)

instance : DecidablePred bitmapOk := fun s =>
  inferInstanceAs (Decidable (∀ i : Fin 3,
    ((s.non_empty_queues &&& (1 <<< i.val)) ≠ 0 ↔ (getQ s i.val).count ≠ 0)))

/-- Structural well-formedness of a scheduler state, as established by
`PriorityScheduler::new`: the queue bank has three queues, each a coherent
circular buffer, the sleep table has 64 slots, and the bitmap matches. -/
def QueueInv (q : TaskQueue) : Prop :=
  q.tasks.length = MAX_TASKS ∧ q.head < MAX_TASKS ∧ q.count ≤ MAX_TASKS ∧
    q.tail = (q.head + q.count) % MAX_TASKS

instance : DecidablePred QueueInv := fun _ =>
  inferInstanceAs (Decidable (_ ∧ _))

/-- Combined scheduler invariant used for the reachability induction. -/
def SchedInv (s : PriorityScheduler) : Prop :=
  s.ready_queues.length = 3 ∧ (∀ i : Fin 3, QueueInv (getQ s i.val)) ∧ bitmapOk s

instance : DecidablePred SchedInv := fun _ =>
  inferInstanceAs (Decidable (_ ∧ _))

/-- The sequence of task ids stored in a circular queue, front to back:
entry `i` of the abstraction lives at array index `(head + i) % 64`. -/
def TaskQueue.toListQ (q : TaskQueue) : List TaskId :=
  (List.range q.count).map fun i => q.tasks.getD ((q.head + i) % MAX_TASKS) 0

/-! ### Spec-level bounded FIFO queue (for the refinement claim)

These definitions are NOT a translation of the source: they spell out the
specification's words "a bounded list-based FIFO queue of capacity 64",
against which the circular-buffer `TaskQueue` is compared. -/

/-- Spec model: push appends at the back, failing at capacity 64. -/
def listPush (l : List TaskId) (t : TaskId) : Bool × List TaskId :=
  if MAX_TASKS ≤ l.length then (false, l) else (true, l ++ [t])

/-- Spec model: pop removes the front element. -/
def listPop (l : List TaskId) : Option TaskId × List TaskId :=
  match l with
  | [] => (none, [])
  | x :: xs => (some x, xs)

/-- An operation on a single queue: push a given id, or pop. -/
inductive QOp where
  | push (t : TaskId)
  | pop
deriving DecidableEq, Repr

/-- Observable output of one queue operation: the `Bool` returned by a push,
or the `Option TaskId` returned by a pop. -/
inductive QOut where
  | pushed (ok : Bool)
  | popped (r : Option TaskId)
deriving DecidableEq, Repr

/-- Run queue operations on the circular buffer, collecting the outputs. -/
def runQueue : TaskQueue → List QOp → List QOut × TaskQueue
  | q, [] => ([], q)
  | q, .push t :: rest =>
    let r := q.push_back t
    let rec2 := runQueue r.2 rest
    (.pushed r.1 :: rec2.1, rec2.2)
  | q, .pop :: rest =>
    let r := q.pop_front
    let rec2 := runQueue r.2 rest
    (.popped r.1 :: rec2.1, rec2.2)

/-- Run queue operations on the spec-level list queue, collecting outputs. -/
def runListQueue : List TaskId → List QOp → List QOut × List TaskId
  | l, [] => ([], l)
  | l, .push t :: rest =>
    let r := listPush l t
    let rec2 := runListQueue r.2 rest
    (.pushed r.1 :: rec2.1, rec2.2)
  | l, .pop :: rest =>
    let r := listPop l
    let rec2 := runListQueue r.2 rest
    (.popped r.1 :: rec2.1, rec2.2)

/-! ### mod.rs: `spawn_task` -/

/-- Outcome of `spawn_task` (mod.rs): either the new task id, or a kernel
panic (the source raises `panic!`; the model makes the panic an explicit
outcome value carrying the format string). -/
inductive SpawnResult where
  | ok (tid : TaskId)
  | panicked (msg : String)
deriving DecidableEq, Repr

/-- `struct SchedState` (mod.rs) together with the task table
`TASK_TABLE` (mod.rs): `task_table` entry `i` is `true` when slot `i` holds
a non-null task pointer. -/
structure SchedState where
  runqueue : TaskQueue
  current : Option TaskId
  next_tid : Nat
  task_table : List Bool
deriving DecidableEq, Repr

/-- `spawn_task` (mod.rs). The allocator `kmalloc` lives outside the
scheduling sources; its outcome is the `alloc` argument (`none` models a
null return). The source panics — it has no error-kind return path — so
the model returns `SpawnResult.panicked` with the panic format string at
each `panic!` site, leaving the state as it stood at the panic. -/
def spawn_task (st : SchedState) (alloc : Option Nat) : SpawnResult × SchedState :=
  let task_id := st.next_tid
  if MAX_TASKS ≤ task_id then
    (.panicked "[SCHED] Too many tasks! Maximum is \x7b\x7d", st)
  else
    let st1 := { st with next_tid := st.next_tid + 1 }
    match alloc with
    | none => (.panicked "[SCHED] Failed to allocate memory for task \x7b\x7d", st1)
    | some _ =>
      let st2 := { st1 with task_table := st1.task_table.set task_id true }
      let res := st2.runqueue.push_back task_id
      let st3 := { st2 with runqueue := res.2 }
      if res.1 then (.ok task_id, st3)
      else (.panicked "[SCHED] Failed to add task \x7b\x7d to runqueue", st3)

/-! ### sys/mod.rs and sys/syscall.rs -/

/-- The `syscall_count` field of `KernelMetrics` (sys/mod.rs), the only
metrics the modelled dispatcher code touches: five `AtomicUsize` counters. -/
structure KernelMetrics where
  syscall_count : List Nat
deriving DecidableEq, Repr

/-- `KernelMetrics::increment_syscall` (sys/mod.rs): bump
`syscall_count[syscall_id]` only when `syscall_id < 5`. -/
def KernelMetrics.increment_syscall (m : KernelMetrics) (syscall_id : Nat) :
    KernelMetrics :=
  if syscall_id < 5 then
    { m with syscall_count :=
        m.syscall_count.set syscall_id (m.syscall_count.getD syscall_id 0 + 1) }
  else
    m

/-- `SYS_WRITE` (syscall.rs). -/
def SYS_WRITE : Nat := 0
/-- `SYS_EXIT` (syscall.rs). -/
def SYS_EXIT : Nat := 1
/-- `SYS_SLEEP` (syscall.rs). -/
def SYS_SLEEP : Nat := 2
/-- `SYS_IPC_SEND` (syscall.rs). -/
def SYS_IPC_SEND : Nat := 3
/-- `SYS_IPC_RECV` (syscall.rs). -/
def SYS_IPC_RECV : Nat := 4

/-- A handler invocation performed by `syscall_dispatcher` (syscall.rs),
with the arguments it passes. -/
inductive SyscallCall where
  | write (fd buf_ptr len : Nat)
  | exitCall (code : Nat)
  | sleepCall (ticks : Nat)
  | ipc_send (port_id buf_ptr len : Nat)
  | ipc_recv (port_id buf_ptr len : Nat)
deriving DecidableEq, Repr

/-- What the dispatcher does after bumping metrics: invoke a handler, or
return a value directly (the `_ => -1` arm). -/
inductive DispatchResult where
  | call (c : SyscallCall)
  | ret (v : Int)
deriving DecidableEq, Repr

/-- `syscall_dispatcher` (syscall.rs): increment the metrics counter, then
match on the id; ids 0–4 go to the five handlers, anything else returns -1
without touching a handler. -/
def syscall_dispatcher (m : KernelMetrics) (syscall_id arg1 arg2 arg3 : Nat) :
    KernelMetrics × DispatchResult :=
  let m2 := m.increment_syscall syscall_id
  (m2,
    match syscall_id with
    | 0 => .call (.write arg1 arg2 arg3)
    | 1 => .call (.exitCall arg1)
    | 2 => .call (.sleepCall arg1)
    | 3 => .call (.ipc_send arg1 arg2 arg3)
    | 4 => .call (.ipc_recv arg1 arg2 arg3)
    | _ => .ret (-1))

/-- `sys_write` (syscall.rs). The second component records whether the
`unsafe { core::slice::from_raw_parts(..) }` block is reached: the source
returns `-1` for `fd != 0` and `0` for a null pointer or zero length before
ever forming the slice, and returns `len` after printing otherwise. -/
def sys_write (fd buf_ptr len : Nat) : Int × Bool :=
  if fd ≠ 0 then
    (-1, false)
  else if buf_ptr = 0 ∨ len = 0 then
    (0, false)
  else
    ((len : Int), true)

/-- The `(task_id, priority)` pairs of the expired sleep-table slots, in
table order: the slots `wake_sleeping_tasks` wakes. -/
def expiredPairs (s : PriorityScheduler) : List (TaskId × TaskPriority) :=
  (s.sleeping_tasks.filter fun sl =>
      sl.valid && decide (sl.wake_tick ≤ s.current_tick)).map
    fun sl => (sl.task_id, sl.priority)

/-- How many expired sleepers target ready queue `i`. -/
def countExpiredAt (s : PriorityScheduler) (i : Nat) : Nat :=
  ((expiredPairs s).filter fun pr => pr.2.as_index == i).length

/-- A scheduler state whose Normal queue is full: tasks 0..63 enqueued at
Normal priority from the fresh state. -/
def fullNormalState : PriorityScheduler :=
  (List.range 64).foldl (fun s i => (s.enqueue_task i .normal).2) PriorityScheduler.new

/-- `fullNormalState` with task 99 additionally recorded asleep at Normal
priority with an already-expired deadline (ticks = 0). -/
def fullNormalSleeper : PriorityScheduler :=
  (fullNormalState.sleep_task 99 0 .normal).2

/-- A fresh scheduler with task 9 asleep at High priority, deadline already
expired (ticks = 0). -/
def oneSleeperState : PriorityScheduler :=
  (PriorityScheduler.new.sleep_task 9 0 .high).2

/-! ## Helper lemmas -/

theorem list_getD_set_eq {α : Type} (l : List α) (i : Nat) (a d : α)
    (h : i < l.length) : (l.set i a).getD i d = a := by
  induction l generalizing i with
  | nil => simp at h
  | cons x xs ih =>
    cases i with
    | zero => rfl
    | succ n =>
      have := ih n (by simpa using h)
      simpa [List.set, List.getD_cons_succ] using this

theorem list_getD_set_ne {α : Type} (l : List α) (i j : Nat) (a d : α)
    (h : i ≠ j) : (l.set i a).getD j d = l.getD j d := by
  induction l generalizing i j with
  | nil => simp
  | cons x xs ih =>
    cases i with
    | zero =>
      cases j with
      | zero => exact absurd rfl h
      | succ m => rfl
    | succ n =>
      cases j with
      | zero => rfl
      | succ m =>
        have := ih n m (by omega)
        simpa [List.set, List.getD_cons_succ] using this

theorem list_set_getD_self {α : Type} (l : List α) (i : Nat) (d : α) :
    l.set i (l.getD i d) = l := by
  induction l generalizing i with
  | nil => rfl
  | cons x xs ih =>
    cases i with
    | zero => rfl
    | succ n => simpa [List.set, List.getD_cons_succ] using ih n

theorem list_length_set {α : Type} (l : List α) (i : Nat) (a : α) :
    (l.set i a).length = l.length := List.length_set ..

theorem land_shiftLeft_ne_zero (b p : Nat) :
    ((b &&& (1 <<< p)) ≠ 0) ↔ b.testBit p := by
  rw [Nat.shiftLeft_eq, one_mul, Nat.and_two_pow]
  rcases h : b.testBit p <;> simp [h, Nat.pos_iff_ne_zero, Nat.pow_pos]

/-! ## Circular-buffer queue lemmas -/

theorem toListQ_length (q : TaskQueue) : q.toListQ.length = q.count := by
  simp [TaskQueue.toListQ]

theorem push_back_of_full (q : TaskQueue) (t : TaskId) (h : MAX_TASKS ≤ q.count) :
    q.push_back t = (false, q) := by
  simp [TaskQueue.push_back, h]

theorem push_back_spec (q : TaskQueue) (t : TaskId) (hq : QueueInv q)
    (h : q.count < MAX_TASKS) :
    (q.push_back t).1 = true ∧ QueueInv (q.push_back t).2 ∧
      (q.push_back t).2.toListQ = q.toListQ ++ [t] ∧
      (q.push_back t).2.count = q.count + 1 := by
  obtain ⟨hlen, hhead, hcount, htail⟩ := hq
  have hlen64 : q.tasks.length = 64 := hlen
  have hhead64 : q.head < 64 := hhead
  have hcount64 : q.count < 64 := h
  have htail64 : q.tail = (q.head + q.count) % 64 := htail
  have hpush : q.push_back t =
      (true, { q with tasks := q.tasks.set q.tail t,
                      tail := (q.tail + 1) % MAX_TASKS,
                      count := q.count + 1 }) := by
    unfold TaskQueue.push_back
    rw [if_neg (by omega)]
  rw [hpush]
  refine ⟨rfl, ⟨?_, ?_, ?_, ?_⟩, ?_, rfl⟩
  · simpa using hlen
  · exact hhead
  · show q.count + 1 ≤ 64
    omega
  · show (q.tail + 1) % 64 = (q.head + (q.count + 1)) % 64
    omega
  · show List.map (fun i => (q.tasks.set q.tail t).getD ((q.head + i) % MAX_TASKS) 0)
        (List.range (q.count + 1)) = q.toListQ ++ [t]
    rw [List.range_succ, List.map_append, List.map_cons, List.map_nil]
    congr 1
    · apply List.map_congr_left
      intro i hi
      have hi2 : i < q.count := List.mem_range.mp hi
      apply list_getD_set_ne
      show q.tail ≠ (q.head + i) % 64
      omega
    · show [(q.tasks.set q.tail t).getD ((q.head + q.count) % 64) 0] = [t]
      rw [← htail64, list_getD_set_eq]
      omega

theorem pop_front_of_empty (q : TaskQueue) (h : q.count = 0) :
    q.pop_front = (none, q) ∧ q.toListQ = [] := by
  constructor
  · simp [TaskQueue.pop_front, h]
  · simp [TaskQueue.toListQ, h]

theorem pop_front_spec (q : TaskQueue) (hq : QueueInv q) (h : q.count ≠ 0) :
    (q.pop_front).1 = some (q.toListQ.getD 0 0) ∧ QueueInv (q.pop_front).2 ∧
      (q.pop_front).2.toListQ = q.toListQ.tail ∧
      (q.pop_front).2.count = q.count - 1 := by
  obtain ⟨hlen, hhead, hcount, htail⟩ := hq
  have hhead64 : q.head < 64 := hhead
  have hcount64 : q.count ≤ 64 := hcount
  have htail64 : q.tail = (q.head + q.count) % 64 := htail
  obtain ⟨m, hm⟩ : ∃ m, q.count = m + 1 := ⟨q.count - 1, by omega⟩
  have hpop : q.pop_front =
      (some (q.tasks.getD q.head 0),
       { q with head := (q.head + 1) % MAX_TASKS, count := q.count - 1 }) := by
    unfold TaskQueue.pop_front
    rw [if_neg h]
  have hrange : q.toListQ =
      q.tasks.getD (q.head % 64) 0 ::
        (List.range m).map fun i => q.tasks.getD ((q.head + (i + 1)) % 64) 0 := by
    show List.map (fun i => q.tasks.getD ((q.head + i) % MAX_TASKS) 0)
        (List.range q.count) = _
    rw [hm, List.range_succ_eq_map, List.map_cons, List.map_map]
    rfl
  have hheadmod : q.head % 64 = q.head := Nat.mod_eq_of_lt hhead64
  rw [hpop]
  refine ⟨?_, ⟨?_, ?_, ?_, ?_⟩, ?_, rfl⟩
  · rw [hrange, hheadmod]
    rfl
  · exact hlen
  · show (q.head + 1) % 64 < 64
    omega
  · show q.count - 1 ≤ 64
    omega
  · show q.tail = ((q.head + 1) % 64 + (q.count - 1)) % 64
    omega
  · show List.map (fun i => q.tasks.getD (((q.head + 1) % 64 + i) % 64) 0)
        (List.range (q.count - 1)) = q.toListQ.tail
    rw [hrange, List.tail_cons, hm]
    show List.map _ (List.range (m + 1 - 1)) = _
    rw [Nat.add_sub_cancel]
    apply List.map_congr_left
    intro i hi
    have hi2 : i < m := List.mem_range.mp hi
    congr 1
    omega

theorem testBit_or_shiftLeft_self (b i : Nat) : (b ||| (1 <<< i)).testBit i = true := by
  simp [Nat.testBit_or, Nat.testBit_shiftLeft]

theorem testBit_or_shiftLeft_ne (b i j : Nat) (h : i ≠ j) :
    (b ||| (1 <<< i)).testBit j = b.testBit j := by
  have h2 : ((1 : Nat) <<< i).testBit j = false := by
    rw [Nat.shiftLeft_eq, one_mul, Nat.testBit_two_pow]
    simpa using h
  rw [Nat.testBit_or, h2, Bool.or_false]

theorem testBit_and_mask_self (b i : Nat) (hi : i < 8) :
    (b &&& (255 ^^^ (1 <<< i))).testBit i = false := by
  have hmask : ((255 : Nat) ^^^ (1 <<< i)).testBit i = false := by
    interval_cases i <;> decide
  rw [Nat.testBit_and, hmask, Bool.and_false]

theorem testBit_and_mask_ne (b i j : Nat) (hi : i < 8) (hj : j < 8) (h : i ≠ j) :
    (b &&& (255 ^^^ (1 <<< i))).testBit j = b.testBit j := by
  have hmask : ((255 : Nat) ^^^ (1 <<< i)).testBit j = true := by
    interval_cases i <;> interval_cases j <;> first | decide | (exact absurd rfl h)
  rw [Nat.testBit_and, hmask, Bool.and_true]

theorem as_index_lt (p : TaskPriority) : p.as_index < 3 := by
  cases p <;> decide

/-- `SchedInv` only looks at the queue bank and the bitmap. -/
theorem schedInv_of_fields_eq (s s2 : PriorityScheduler)
    (hq : s2.ready_queues = s.ready_queues)
    (hb : s2.non_empty_queues = s.non_empty_queues)
    (h : SchedInv s) : SchedInv s2 := by
  obtain ⟨h1, h2, h3⟩ := h
  refine ⟨by rw [hq]; exact h1, ?_, ?_⟩
  · intro i
    have := h2 i
    simpa [getQ, hq] using this
  · intro i
    have := h3 i
    simpa [getQ, hq, hb] using this

theorem runQueue_sim (ops : List QOp) (q : TaskQueue) (l : List TaskId)
    (hq : QueueInv q) (habs : q.toListQ = l) :
    (runQueue q ops).1 = (runListQueue l ops).1 ∧
      QueueInv (runQueue q ops).2 ∧
      (runQueue q ops).2.toListQ = (runListQueue l ops).2 := by
  induction ops generalizing q l with
  | nil => exact ⟨rfl, hq, habs⟩
  | cons op rest ih =>
    have hlength : l.length = q.count := by rw [← habs, toListQ_length]
    cases op with
    | push t =>
      by_cases hfull : MAX_TASKS ≤ q.count
      · have hfl : MAX_TASKS ≤ l.length := by omega
        have h1 : q.push_back t = (false, q) := push_back_of_full q t hfull
        have h2 : listPush l t = (false, l) := by simp [listPush, hfl]
        have := ih q l hq habs
        simp only [runQueue, runListQueue, h1, h2]
        exact ⟨by rw [this.1], this.2.1, this.2.2⟩
      · have hlt : q.count < MAX_TASKS := by omega
        obtain ⟨hres, hinv2, habs2, _⟩ := push_back_spec q t hq hlt
        have h2 : listPush l t = (true, l ++ [t]) := by
          have : ¬ (MAX_TASKS ≤ l.length) := by omega
          simp [listPush, this]
        have := ih (q.push_back t).2 (l ++ [t]) hinv2 (by rw [habs2, habs])
        simp only [runQueue, runListQueue, h2]
        refine ⟨?_, this.2.1, this.2.2⟩
        rw [hres, this.1]
    | pop =>
      by_cases hempty : q.count = 0
      · have hl : l = [] := by
          have := hlength
          rw [hempty] at this
          exact List.length_eq_zero.mp this
        obtain ⟨h1, _⟩ := pop_front_of_empty q hempty
        have := ih q l hq habs
        simp only [runQueue, runListQueue, h1, hl, listPop]
        rw [hl] at this
        exact ⟨by rw [this.1], this.2.1, this.2.2⟩
      · obtain ⟨hres, hinv2, htail2, _⟩ := pop_front_spec q hq hempty
        obtain ⟨x, xs, hx⟩ : ∃ x xs, l = x :: xs := by
          cases hl : l with
          | nil => rw [hl] at hlength; simp at hlength; omega
          | cons a as => exact ⟨a, as, rfl⟩
        have hfront : q.toListQ.getD 0 0 = x := by rw [habs, hx]; rfl
        have htl : q.toListQ.tail = xs := by rw [habs, hx]; rfl
        have := ih (q.pop_front).2 xs hinv2 (by rw [htail2, htl])
        simp only [runQueue, runListQueue, hx, listPop]
        refine ⟨?_, this.2.1, this.2.2⟩
        rw [hres, hfront, this.1]

theorem enqueue_task_of_full (s : PriorityScheduler) (t : TaskId) (p : TaskPriority)
    (h : MAX_TASKS ≤ (getQ s p.as_index).count) :
    s.enqueue_task t p = (false, s) := by
  have hpush : (getQ s p.as_index).push_back t = (false, getQ s p.as_index) :=
    push_back_of_full _ t h
  unfold PriorityScheduler.enqueue_task
  simp only [hpush, Bool.false_eq_true, if_false]
  rw [getQ, list_set_getD_self]

theorem enqueue_task_of_room (s : PriorityScheduler) (t : TaskId) (p : TaskPriority)
    (h : (getQ s p.as_index).count < MAX_TASKS) :
    s.enqueue_task t p =
      (true,
       { s with
           ready_queues := s.ready_queues.set p.as_index ((getQ s p.as_index).push_back t).2,
           non_empty_queues := s.non_empty_queues ||| (1 <<< p.as_index) }) := by
  have hres : ((getQ s p.as_index).push_back t).1 = true := by
    unfold TaskQueue.push_back
    rw [if_neg (by omega)]
  unfold PriorityScheduler.enqueue_task
  simp only [hres, if_true]

theorem schedInv_enqueue (s : PriorityScheduler) (t : TaskId) (p : TaskPriority)
    (h : SchedInv s) : SchedInv (s.enqueue_task t p).2 := by
  obtain ⟨hlen, hq, hb⟩ := h
  have hilt : p.as_index < 3 := as_index_lt p
  by_cases hfull : MAX_TASKS ≤ (getQ s p.as_index).count
  · rw [enqueue_task_of_full s t p hfull]
    exact ⟨hlen, hq, hb⟩
  · have hroom : (getQ s p.as_index).count < MAX_TASKS := by omega
    obtain ⟨hres, hinv2, _, hcnt⟩ := push_back_spec (getQ s p.as_index) t (hq ⟨p.as_index, hilt⟩) hroom
    rw [enqueue_task_of_room s t p hroom]
    refine ⟨by simpa using hlen, ?_, ?_⟩
    · intro j
      by_cases hij : p.as_index = j.val
      · have : getQ
            { s with
                ready_queues := s.ready_queues.set p.as_index ((getQ s p.as_index).push_back t).2,
                non_empty_queues := s.non_empty_queues ||| (1 <<< p.as_index) } j.val
            = ((getQ s p.as_index).push_back t).2 := by
          simp only [getQ, ← hij]
          exact list_getD_set_eq _ _ _ _ (by omega)
        rw [this]
        exact hinv2
      · have : getQ
            { s with
                ready_queues := s.ready_queues.set p.as_index ((getQ s p.as_index).push_back t).2,
                non_empty_queues := s.non_empty_queues ||| (1 <<< p.as_index) } j.val
            = getQ s j.val := by
          simp only [getQ]
          exact list_getD_set_ne _ _ _ _ _ hij
        rw [this]
        exact hq j
    · intro j
      by_cases hij : p.as_index = j.val
      · have hqj : getQ
            { s with
                ready_queues := s.ready_queues.set p.as_index ((getQ s p.as_index).push_back t).2,
                non_empty_queues := s.non_empty_queues ||| (1 <<< p.as_index) } j.val
            = ((getQ s p.as_index).push_back t).2 := by
          simp only [getQ, ← hij]
          exact list_getD_set_eq _ _ _ _ (by omega)
        rw [land_shiftLeft_ne_zero, hqj]
        show (s.non_empty_queues ||| (1 <<< p.as_index)).testBit j.val ↔ _
        rw [← hij, testBit_or_shiftLeft_self]
        simp [hcnt]
      · have hqj : getQ
            { s with
                ready_queues := s.ready_queues.set p.as_index ((getQ s p.as_index).push_back t).2,
                non_empty_queues := s.non_empty_queues ||| (1 <<< p.as_index) } j.val
            = getQ s j.val := by
          simp only [getQ]
          exact list_getD_set_ne _ _ _ _ _ hij
        rw [land_shiftLeft_ne_zero, hqj]
        show (s.non_empty_queues ||| (1 <<< p.as_index)).testBit j.val ↔ _
        rw [testBit_or_shiftLeft_ne _ _ _ hij]
        rw [← land_shiftLeft_ne_zero]
        exact hb j

theorem selectLoop_skip (s : PriorityScheduler) (p : Nat) (rest : List Nat)
    (hbit : (s.non_empty_queues &&& (1 <<< p)) = 0) :
    selectLoop s (p :: rest) = selectLoop s rest := by
  conv_lhs => unfold selectLoop
  rw [if_neg (by simp [hbit])]

theorem selectLoop_hit (s : PriorityScheduler) (p : Nat) (rest : List Nat)
    (hbit : (s.non_empty_queues &&& (1 <<< p)) ≠ 0)
    (hcnt : (getQ s p).count ≠ 0) :
    selectLoop s (p :: rest) =
      (some ((getQ s p).tasks.getD (getQ s p).head 0),
       { s with
           ready_queues := s.ready_queues.set p ((getQ s p).pop_front).2,
           non_empty_queues :=
             if (getQ s p).count = 1 then s.non_empty_queues &&& (255 ^^^ (1 <<< p))
             else s.non_empty_queues }) := by
  have hpop : (getQ s p).pop_front =
      (some ((getQ s p).tasks.getD (getQ s p).head 0),
       { getQ s p with head := ((getQ s p).head + 1) % MAX_TASKS,
                       count := (getQ s p).count - 1 }) := by
    unfold TaskQueue.pop_front
    rw [if_neg hcnt]
  unfold selectLoop
  rw [if_pos hbit]
  simp only [hpop]
  by_cases h1 : (getQ s p).count = 1
  · rw [if_pos (by omega : (getQ s p).count - 1 = 0), if_pos h1]
  · rw [if_neg (by omega : ¬ ((getQ s p).count - 1 = 0)), if_neg h1]

theorem bit_zero_of_count_zero (s : PriorityScheduler) (hb : bitmapOk s) (q : Nat)
    (hq : q < 3) (hcnt : (getQ s q).count = 0) :
    (s.non_empty_queues &&& (1 <<< q)) = 0 := by
  have := (hb ⟨q, hq⟩).mpr
  by_contra hne
  exact absurd hcnt (fun hh => ((hb ⟨q, hq⟩).mp hne) hh)

theorem select_next_none_of_empty (s : PriorityScheduler) (hb : bitmapOk s)
    (hall : ∀ q, q < 3 → (getQ s q).count = 0) :
    s.select_next = (none, s) := by
  unfold PriorityScheduler.select_next
  rw [selectLoop_skip s 2 _ (bit_zero_of_count_zero s hb 2 (by omega) (hall 2 (by omega)))]
  rw [selectLoop_skip s 1 _ (bit_zero_of_count_zero s hb 1 (by omega) (hall 1 (by omega)))]
  rw [selectLoop_skip s 0 _ (bit_zero_of_count_zero s hb 0 (by omega) (hall 0 (by omega)))]
  rfl

theorem select_next_hit (s : PriorityScheduler) (hb : bitmapOk s) (p : Nat)
    (hp : p < 3) (hne : (getQ s p).count ≠ 0)
    (habove : ∀ q, q < 3 → p < q → (getQ s q).count = 0) :
    s.select_next =
      (some ((getQ s p).tasks.getD (getQ s p).head 0),
       { s with
           ready_queues := s.ready_queues.set p ((getQ s p).pop_front).2,
           non_empty_queues :=
             if (getQ s p).count = 1 then s.non_empty_queues &&& (255 ^^^ (1 <<< p))
             else s.non_empty_queues }) := by
  have hbitp : (s.non_empty_queues &&& (1 <<< p)) ≠ 0 := (hb ⟨p, hp⟩).mpr hne
  unfold PriorityScheduler.select_next
  interval_cases p
  · rw [selectLoop_skip s 2 _
        (bit_zero_of_count_zero s hb 2 (by omega) (habove 2 (by omega) (by omega)))]
    rw [selectLoop_skip s 1 _
        (bit_zero_of_count_zero s hb 1 (by omega) (habove 1 (by omega) (by omega)))]
    exact selectLoop_hit s 0 _ hbitp hne
  · rw [selectLoop_skip s 2 _
        (bit_zero_of_count_zero s hb 2 (by omega) (habove 2 (by omega) (by omega)))]
    exact selectLoop_hit s 1 _ hbitp hne
  · exact selectLoop_hit s 2 _ hbitp hne

theorem schedInv_after_pop (s : PriorityScheduler) (p : Nat) (hp : p < 3)
    (h : SchedInv s) (hne : (getQ s p).count ≠ 0) :
    SchedInv
      { s with
          ready_queues := s.ready_queues.set p ((getQ s p).pop_front).2,
          non_empty_queues :=
            if (getQ s p).count = 1 then s.non_empty_queues &&& (255 ^^^ (1 <<< p))
            else s.non_empty_queues } := by
  obtain ⟨hlen, hq, hb⟩ := h
  obtain ⟨_, hinv2, _, hcnt2⟩ := pop_front_spec (getQ s p) (hq ⟨p, hp⟩) hne
  refine ⟨by simpa using hlen, ?_, ?_⟩
  · intro j
    show QueueInv ((s.ready_queues.set p ((getQ s p).pop_front).2).getD j.val TaskQueue.new)
    by_cases hij : p = j.val
    · rw [← hij, list_getD_set_eq _ _ _ _ (by omega)]
      exact hinv2
    · rw [list_getD_set_ne _ _ _ _ _ hij]
      exact hq j
  · intro j
    show ((if (getQ s p).count = 1 then s.non_empty_queues &&& (255 ^^^ (1 <<< p))
          else s.non_empty_queues) &&& (1 <<< j.val)) ≠ 0 ↔
        ((s.ready_queues.set p ((getQ s p).pop_front).2).getD j.val TaskQueue.new).count ≠ 0
    by_cases hij : p = j.val
    · rw [← hij, list_getD_set_eq _ _ _ _ (by omega), hcnt2, land_shiftLeft_ne_zero]
      by_cases h1 : (getQ s p).count = 1
      · rw [if_pos h1, testBit_and_mask_self _ _ (by omega)]
        simp [h1]
      · rw [if_neg h1, ← land_shiftLeft_ne_zero]
        have hbp := (hb ⟨p, hp⟩).mpr hne
        constructor
        · intro _
          omega
        · intro _
          exact hbp
    · rw [list_getD_set_ne _ _ _ _ _ hij]
      by_cases h1 : (getQ s p).count = 1
      · rw [if_pos h1, land_shiftLeft_ne_zero,
          testBit_and_mask_ne _ _ _ (by omega) (by omega) hij, ← land_shiftLeft_ne_zero]
        exact hb j
      · rw [if_neg h1]
        exact hb j

theorem schedInv_select (s : PriorityScheduler) (h : SchedInv s) :
    SchedInv s.select_next.2 := by
  have hb := h.2.2
  by_cases h2 : (getQ s 2).count = 0
  · by_cases h1 : (getQ s 1).count = 0
    · by_cases h0 : (getQ s 0).count = 0
      · rw [select_next_none_of_empty s hb (by intro q hq; interval_cases q <;> assumption)]
        exact h
      · rw [select_next_hit s hb 0 (by omega) h0
            (by intro q hq hgt; interval_cases q <;> omega)]
        exact schedInv_after_pop s 0 (by omega) h h0
    · rw [select_next_hit s hb 1 (by omega) h1
          (by intro q hq hgt; interval_cases q; omega)]
      exact schedInv_after_pop s 1 (by omega) h h1
  · rw [select_next_hit s hb 2 (by omega) h2
        (by intro q hq hgt; interval_cases q)]
    exact schedInv_after_pop s 2 (by omega) h h2

theorem sleep_task_fields (s : PriorityScheduler) (t : TaskId) (k : Nat)
    (p : TaskPriority) :
    (s.sleep_task t k p).2.ready_queues = s.ready_queues ∧
      (s.sleep_task t k p).2.non_empty_queues = s.non_empty_queues ∧
      (s.sleep_task t k p).2.current_tick = s.current_tick ∧
      (s.sleep_task t k p).2.preempt_disable_count = s.preempt_disable_count := by
  unfold PriorityScheduler.sleep_task
  cases hsl : sleepLoop t ((s.current_tick + k) % U64_MOD) p s.sleeping_tasks <;>
    simp [hsl]

theorem enqueueAll_schedInv (pairs : List (TaskId × TaskPriority))
    (s : PriorityScheduler) (h : SchedInv s) : SchedInv (enqueueAll s pairs) := by
  induction pairs generalizing s with
  | nil => exact h
  | cons pr rest ih => exact ih _ (schedInv_enqueue s pr.1 pr.2 h)

theorem schedInv_wake (s : PriorityScheduler) (h : SchedInv s) :
    SchedInv s.wake_sleeping_tasks.2 := by
  unfold PriorityScheduler.wake_sleeping_tasks
  exact enqueueAll_schedInv _ _ (schedInv_of_fields_eq s _ rfl rfl h)

theorem schedInv_new : SchedInv PriorityScheduler.new := by decide

theorem preempt_enable_fields (s : PriorityScheduler) :
    (s.preempt_enable).ready_queues = s.ready_queues ∧
      (s.preempt_enable).non_empty_queues = s.non_empty_queues ∧
      (s.preempt_enable).current_tick = s.current_tick ∧
      (s.preempt_enable).sleeping_tasks = s.sleeping_tasks := by
  unfold PriorityScheduler.preempt_enable
  split <;> exact ⟨rfl, rfl, rfl, rfl⟩

theorem schedInv_applyOp (s : PriorityScheduler) (op : SchedOp) (h : SchedInv s) :
    SchedInv (applyOp s op) := by
  cases op with
  | enqueue t p => exact schedInv_enqueue s t p h
  | select => exact schedInv_select s h
  | sleep t k p =>
    exact schedInv_of_fields_eq s _ (sleep_task_fields s t k p).1
      (sleep_task_fields s t k p).2.1 h
  | wake => exact schedInv_wake s h
  | tickOp => exact schedInv_of_fields_eq s _ rfl rfl h
  | pdisable => exact schedInv_of_fields_eq s _ rfl rfl h
  | penable =>
    exact schedInv_of_fields_eq s _ (preempt_enable_fields s).1
      (preempt_enable_fields s).2.1 h

theorem schedInv_runOps (ops : List SchedOp) (s : PriorityScheduler)
    (h : SchedInv s) : SchedInv (runOps s ops) := by
  induction ops generalizing s with
  | nil => exact h
  | cons op rest ih => exact ih _ (schedInv_applyOp s op h)

set_option maxRecDepth 100000

/-- C1: for every scheduler state whose bitmap matches its queues (the
invariant established for all reachable states), `select_next` scans the
priorities High → Normal → Low and returns `some` of the front element of
the highest-priority non-empty queue (`none`, leaving the state unchanged,
when all three queues are empty), and afterwards the bitmap bit of the
popped queue is cleared exactly when that queue became empty (i.e. held
exactly one element). -/
theorem select_next_scans_priorities (s : PriorityScheduler) (hb : bitmapOk s) :
    ((∀ q, q < 3 → (getQ s q).count = 0) → s.select_next = (none, s)) ∧
    (∀ p, p < 3 → (getQ s p).count ≠ 0 →
      (∀ q, q < 3 → p < q → (getQ s q).count = 0) →
      s.select_next =
        (some ((getQ s p).tasks.getD (getQ s p).head 0),
         { s with
             ready_queues := s.ready_queues.set p ((getQ s p).pop_front).2,
             non_empty_queues :=
               if (getQ s p).count = 1 then s.non_empty_queues &&& (255 ^^^ (1 <<< p))
               else s.non_empty_queues })) :=
  ⟨select_next_none_of_empty s hb,
   fun p hp hne habove => select_next_hit s hb p hp hne habove⟩

/-- Witness for C1 at a state with tasks 5 (Normal) and 7 (High): the High
task is selected. -/
theorem select_next_scans_priorities_witness :
    bitmapOk ((PriorityScheduler.new.enqueue_task 5 .normal).2.enqueue_task 7 .high).2 ∧
      (getQ ((PriorityScheduler.new.enqueue_task 5 .normal).2.enqueue_task 7 .high).2 2).count ≠ 0 ∧
      (((PriorityScheduler.new.enqueue_task 5 .normal).2.enqueue_task 7 .high).2.select_next).1 =
        some 7 := by
  refine ⟨by decide, by decide, ?_⟩
  have h := (select_next_scans_priorities
      ((PriorityScheduler.new.enqueue_task 5 .normal).2.enqueue_task 7 .high).2
      (by decide)).2 2 (by decide) (by decide) (by intro q hq hgt; omega)
  rw [h]
  decide

/-- C2: for every sequence of public scheduler operations applied to the
initial state, bit `i` of `non_empty_queues` is set iff `ready_queues[i]`
has positive length, for each `i < 3`. -/
theorem bitmap_matches_queue_lengths (ops : List SchedOp) (i : Fin 3) :
    ((runOps PriorityScheduler.new ops).non_empty_queues &&& (1 <<< i.val)) ≠ 0 ↔
      0 < (getQ (runOps PriorityScheduler.new ops) i.val).len := by
  have h := (schedInv_runOps ops _ schedInv_new).2.2 i
  rw [h]
  simp [TaskQueue.len, Nat.pos_iff_ne_zero]

/-- C3 (evidence): `tick` only increments `current_tick` and never calls
`wake_sleeping_tasks`, contrary to the spec and to `tick`'s own doc comment
("Update tick counter and wake tasks"). Concretely: from the fresh state,
put task 1 to sleep for 1 tick, then tick once; `current_tick` becomes 1,
the sleeper is expired (`wake_tick ≤ current_tick`) yet still sits valid in
the sleep table, and every ready queue stays empty. -/
theorem tick_does_not_wake_expired_sleeper :
    ((PriorityScheduler.new.sleep_task 1 1 .normal).2.tick).current_tick = 1 ∧
      (((PriorityScheduler.new.sleep_task 1 1 .normal).2.tick).sleeping_tasks.getD 0
          SleepingTask.emptySlot).valid = true ∧
      (((PriorityScheduler.new.sleep_task 1 1 .normal).2.tick).sleeping_tasks.getD 0
          SleepingTask.emptySlot).wake_tick ≤
        ((PriorityScheduler.new.sleep_task 1 1 .normal).2.tick).current_tick ∧
      ((PriorityScheduler.new.sleep_task 1 1 .normal).2.tick).lenSched = 0 ∧
      ((PriorityScheduler.new.sleep_task 1 1 .normal).2.tick).ready_queues =
        (PriorityScheduler.new.sleep_task 1 1 .normal).2.ready_queues := by
  decide

/-- C7: starting from the empty queue, the circular-buffer `TaskQueue`
produces, for every sequence of `push_back`/`pop_front` operations, exactly
the outputs of the bounded list-based FIFO queue of capacity 64, and its
contents abstract to the list queue's contents; hence tasks are dequeued in
strict FIFO order. -/
theorem taskQueue_refines_bounded_fifo (ops : List QOp) :
    (runQueue TaskQueue.new ops).1 = (runListQueue [] ops).1 ∧
      (runQueue TaskQueue.new ops).2.toListQ = (runListQueue [] ops).2 := by
  have h := runQueue_sim ops TaskQueue.new [] (by decide) (by decide)
  exact ⟨h.1, h.2.2⟩

theorem preempt_enable_count (s : PriorityScheduler) :
    (s.preempt_enable).preempt_disable_count = s.preempt_disable_count - 1 := by
  unfold PriorityScheduler.preempt_enable
  split
  · rfl
  · omega

theorem runPreemptOps_count (ops : List Bool) (s : PriorityScheduler) :
    (runPreemptOps s ops).preempt_disable_count =
      ops.foldl (fun c b => if b then c + 1 else c - 1) s.preempt_disable_count := by
  induction ops generalizing s with
  | nil => rfl
  | cons b rest ih =>
    cases b
    · show (runPreemptOps s.preempt_enable rest).preempt_disable_count = _
      rw [ih s.preempt_enable, preempt_enable_count]
      rfl
    · show (runPreemptOps s.preempt_disable rest).preempt_disable_count = _
      rw [ih s.preempt_disable]
      rfl

/-- C8: `preempt_disable` increments the counter by 1; `preempt_enable`
decrements it, saturating at zero (Nat truncated subtraction coincides with
the source's guarded decrement); any sequence of disable (`true`) / enable
(`false`) calls leaves the counter at the saturating fold, so it can never
underflow below zero; and preemption is permitted exactly when the counter
is zero. -/
theorem preempt_counter_saturates (s : PriorityScheduler) (ops : List Bool) :
    (s.preempt_disable).preempt_disable_count = s.preempt_disable_count + 1 ∧
      (s.preempt_enable).preempt_disable_count = s.preempt_disable_count - 1 ∧
      (s.can_preempt = true ↔ s.preempt_disable_count = 0) ∧
      (runPreemptOps s ops).preempt_disable_count =
        ops.foldl (fun c b => if b then c + 1 else c - 1) s.preempt_disable_count := by
  refine ⟨rfl, preempt_enable_count s, ?_, runPreemptOps_count ops s⟩
  simp [PriorityScheduler.can_preempt]

/-- C9: the syscall dispatcher returns `-1` for any id outside 0..4 without
invoking a handler and without touching the metrics; it routes ids 0,1,2,3,4
to `sys_write`, `sys_exit`, `sys_sleep`, `sys_ipc_send`, `sys_ipc_recv`
respectively; and for ids in the known range it increments
`METRICS.syscall_count[id]` (leaving the other counters unchanged) before
dispatch. -/
theorem syscall_dispatcher_spec (m : KernelMetrics) (id a1 a2 a3 : Nat)
    (hm : m.syscall_count.length = 5) :
    (5 ≤ id → syscall_dispatcher m id a1 a2 a3 = (m, .ret (-1))) ∧
    (id = 0 → (syscall_dispatcher m id a1 a2 a3).2 = .call (.write a1 a2 a3)) ∧
    (id = 1 → (syscall_dispatcher m id a1 a2 a3).2 = .call (.exitCall a1)) ∧
    (id = 2 → (syscall_dispatcher m id a1 a2 a3).2 = .call (.sleepCall a1)) ∧
    (id = 3 → (syscall_dispatcher m id a1 a2 a3).2 = .call (.ipc_send a1 a2 a3)) ∧
    (id = 4 → (syscall_dispatcher m id a1 a2 a3).2 = .call (.ipc_recv a1 a2 a3)) ∧
    (id < 5 →
      (syscall_dispatcher m id a1 a2 a3).1.syscall_count.getD id 0 =
          m.syscall_count.getD id 0 + 1 ∧
        ∀ j, j ≠ id → (syscall_dispatcher m id a1 a2 a3).1.syscall_count.getD j 0 =
          m.syscall_count.getD j 0) := by
  refine ⟨?_, ?_, ?_, ?_, ?_, ?_, ?_⟩
  · intro h5
    obtain ⟨k, rfl⟩ : ∃ k, id = k + 5 := ⟨id - 5, by omega⟩
    have hlt : ¬ (k + 5 < 5) := by omega
    simp [syscall_dispatcher, KernelMetrics.increment_syscall, hlt]
  · rintro rfl
    rfl
  · rintro rfl
    rfl
  · rintro rfl
    rfl
  · rintro rfl
    rfl
  · rintro rfl
    rfl
  · intro h5
    have h1 : (syscall_dispatcher m id a1 a2 a3).1.syscall_count =
        m.syscall_count.set id (m.syscall_count.getD id 0 + 1) := by
      simp [syscall_dispatcher, KernelMetrics.increment_syscall, h5]
    rw [h1]
    refine ⟨list_getD_set_eq _ _ _ _ (by omega), ?_⟩
    intro j hj
    exact list_getD_set_ne _ _ _ _ _ (fun hh => hj hh.symm)

/-- Witness for C9 at id 7 (unknown: metrics untouched, -1 returned) and at
id 0 (routed to `sys_write`, counter 0 bumped). -/
theorem syscall_dispatcher_spec_witness :
    ((5 : Nat) ≤ 7 ∧
      syscall_dispatcher { syscall_count := [0, 0, 0, 0, 0] } 7 1 2 3 =
        ({ syscall_count := [0, 0, 0, 0, 0] }, .ret (-1))) ∧
    ((0 : Nat) < 5 ∧
      (syscall_dispatcher { syscall_count := [0, 0, 0, 0, 0] } 0 1 2 3).2 =
        .call (.write 1 2 3) ∧
      (syscall_dispatcher
          { syscall_count := [0, 0, 0, 0, 0] } 0 1 2 3).1.syscall_count.getD 0 0 = 1) := by
  constructor
  · exact ⟨by decide,
      (syscall_dispatcher_spec { syscall_count := [0, 0, 0, 0, 0] } 7 1 2 3 rfl).1
        (by decide)⟩
  · refine ⟨by decide, ?_, ?_⟩
    · exact (syscall_dispatcher_spec { syscall_count := [0, 0, 0, 0, 0] } 0 1 2 3 rfl).2.1 rfl
    · have h := ((syscall_dispatcher_spec { syscall_count := [0, 0, 0, 0, 0] } 0 1 2 3
          rfl).2.2.2.2.2.2 (by decide)).1
      rw [h]
      decide

/-- C10: `sys_write` with fd 0 and a null buffer pointer or zero length
returns 0 without ever reaching the `from_raw_parts` slice construction
(second component `false`); with fd 0, a non-null pointer and positive
length it returns `len` (and does form the slice). -/
theorem sys_write_guards (fd buf_ptr len : Nat) :
    (fd = 0 → buf_ptr = 0 ∨ len = 0 → sys_write fd buf_ptr len = (0, false)) ∧
    (fd = 0 → buf_ptr ≠ 0 → 0 < len → sys_write fd buf_ptr len = ((len : Int), true)) := by
  constructor
  · rintro rfl hor
    simp [sys_write, hor]
  · rintro rfl hb hl
    have hlz : len ≠ 0 := by omega
    simp [sys_write, hb, hlz]

/-- Witness for C10 at (0, 0, 5) and (0, 100, 5). -/
theorem sys_write_guards_witness :
    ((0 : Nat) = 0 ∧ ((0 : Nat) = 0 ∨ (5 : Nat) = 0) ∧ sys_write 0 0 5 = (0, false)) ∧
    ((0 : Nat) = 0 ∧ (100 : Nat) ≠ 0 ∧ (0 : Nat) < 5 ∧
      sys_write 0 100 5 = ((5 : Int), true)) :=
  ⟨⟨rfl, Or.inl rfl, (sys_write_guards 0 0 5).1 rfl (Or.inl rfl)⟩,
   ⟨rfl, by decide, by decide, (sys_write_guards 0 100 5).2 rfl (by decide) (by decide)⟩⟩

/-- C6 counterexample: the source `spawn_task` panics instead of returning
an error kind. At `next_tid = 64` with a successful allocation it panics
with the too-many-tasks diagnostic (state unchanged at the panic), and at
`next_tid = 1` with a failed allocation it panics after having already
incremented `next_tid` to 2 — so no `TooManyTasks`/`OutOfMemory` error kind
is ever returned to the caller, and on the allocation-failure path the
state is not unchanged either. -/
theorem spawn_task_panics_counterexample :
    (spawn_task ⟨TaskQueue.new, none, 64, List.replicate 64 false⟩ (some 1000)).1 =
      .panicked "[SCHED] Too many tasks! Maximum is \x7b\x7d" ∧
    (spawn_task ⟨TaskQueue.new, none, 1, List.replicate 64 false⟩ none).1 =
      .panicked "[SCHED] Failed to allocate memory for task \x7b\x7d" ∧
    (spawn_task ⟨TaskQueue.new, none, 1, List.replicate 64 false⟩ none).2.next_tid = 2 :=
  ⟨rfl, rfl, rfl⟩

/-- C6 amended: when the TaskId would reach the 64-task capacity,
`spawn_task` panics with the too-many-tasks diagnostic leaving the state
unchanged at the panic point; when TCB allocation fails it panics with the
allocation diagnostic after having already incremented `next_tid` (runqueue
and task table unchanged); no error kind is returned to the caller. -/
theorem spawn_task_failure_panics (st : SchedState) (alloc : Option Nat) :
    (MAX_TASKS ≤ st.next_tid →
      spawn_task st alloc =
        (.panicked "[SCHED] Too many tasks! Maximum is \x7b\x7d", st)) ∧
    (st.next_tid < MAX_TASKS → alloc = none →
      spawn_task st alloc =
        (.panicked "[SCHED] Failed to allocate memory for task \x7b\x7d",
         { st with next_tid := st.next_tid + 1 })) := by
  constructor
  · intro h
    unfold spawn_task
    rw [if_pos h]
  · rintro h rfl
    unfold spawn_task
    rw [if_neg (by omega)]

/-- Witness for C6 (amended) at both failure paths. -/
theorem spawn_task_failure_panics_witness :
    (MAX_TASKS ≤ (64 : Nat) ∧
      (spawn_task ⟨TaskQueue.new, none, 64, List.replicate 64 false⟩ (some 7)).1 =
        .panicked "[SCHED] Too many tasks! Maximum is \x7b\x7d") ∧
    ((1 : Nat) < MAX_TASKS ∧
      (spawn_task ⟨TaskQueue.new, none, 1, List.replicate 64 false⟩ none).2.next_tid = 2) := by
  constructor
  · refine ⟨by decide, ?_⟩
    rw [(spawn_task_failure_panics _ (some 7)).1 (by decide)]
  · refine ⟨by decide, ?_⟩
    rw [(spawn_task_failure_panics
        ⟨TaskQueue.new, none, 1, List.replicate 64 false⟩ none).2 (by decide) rfl]

theorem sleepLoop_all_valid (t w : Nat) (p : TaskPriority)
    (slots : List SleepingTask) (h : ∀ sl ∈ slots, sl.valid = true) :
    sleepLoop t w p slots = none := by
  induction slots with
  | nil => rfl
  | cons slot rest ih =>
    have hs : slot.valid = true := h slot (by simp)
    have hr := ih (fun sl hsl => h sl (by simp [hsl]))
    simp [sleepLoop, hs, hr]

theorem sleepLoop_first_invalid (t w : Nat) (p : TaskPriority)
    (slots : List SleepingTask) (j : Nat) (hj : j < slots.length)
    (hv : (slots.getD j SleepingTask.emptySlot).valid = false)
    (hbef : ∀ i, i < j → (slots.getD i SleepingTask.emptySlot).valid = true) :
    sleepLoop t w p slots =
      some (slots.set j (SleepingTask.mk t w p true)) := by
  induction slots generalizing j with
  | nil => simp at hj
  | cons slot rest ih =>
    cases j with
    | zero =>
      have hs : slot.valid = false := hv
      simp [sleepLoop, hs]
    | succ jj =>
      have hs : slot.valid = true := hbef 0 (by omega)
      have hr := ih jj (by simpa using hj)
        (by simpa [List.getD_cons_succ] using hv)
        (fun i hi => by simpa [List.getD_cons_succ] using hbef (i + 1) (by omega))
      simp [sleepLoop, hs, hr]

/-- C5: `sleep_task(task_id, ticks, prio)` records, in the first previously
invalid slot, a slot with `wake_tick = current_tick + ticks` and the given
priority and returns `true`; it returns `false` exactly when every
sleep-table slot is valid, leaving the state unchanged. (The `u64` addition
is exact under the no-overflow hypothesis.) -/
theorem sleep_task_records_first_free_slot (s : PriorityScheduler) (t : TaskId)
    (ticks : Nat) (p : TaskPriority) (hov : s.current_tick + ticks < U64_MOD) :
    ((∀ i, i < s.sleeping_tasks.length →
        (s.sleeping_tasks.getD i SleepingTask.emptySlot).valid = true) →
      s.sleep_task t ticks p = (false, s)) ∧
    (∀ j, j < s.sleeping_tasks.length →
      (s.sleeping_tasks.getD j SleepingTask.emptySlot).valid = false →
      (∀ i, i < j → (s.sleeping_tasks.getD i SleepingTask.emptySlot).valid = true) →
      s.sleep_task t ticks p =
        (true, { s with sleeping_tasks :=
          s.sleeping_tasks.set j (SleepingTask.mk t (s.current_tick + ticks) p true) })) := by
  have hw : (s.current_tick + ticks) % U64_MOD = s.current_tick + ticks :=
    Nat.mod_eq_of_lt hov
  constructor
  · intro hall
    have hmem : ∀ sl ∈ s.sleeping_tasks, sl.valid = true := by
      intro sl hsl
      obtain ⟨i, hi, hEl⟩ := List.mem_iff_getElem.mp hsl
      have := hall i hi
      rw [List.getD_eq_getElem _ _ hi, hEl] at this
      exact this
    have hsl := sleepLoop_all_valid t ((s.current_tick + ticks) % U64_MOD) p
      s.sleeping_tasks hmem
    simp [PriorityScheduler.sleep_task, hsl]
  · intro j hj hv hbef
    have hsl := sleepLoop_first_invalid t ((s.current_tick + ticks) % U64_MOD) p
      s.sleeping_tasks j hj hv hbef
    rw [hw] at hsl
    simp [PriorityScheduler.sleep_task, hw, hsl]

/-- Witness for C5: from the fresh state (slot 0 free), sleeping task 3 for
5 ticks at High succeeds and records wake_tick 5 in slot 0. -/
theorem sleep_task_records_first_free_slot_witness :
    PriorityScheduler.new.current_tick + 5 < U64_MOD ∧
      (PriorityScheduler.new.sleeping_tasks.getD 0 SleepingTask.emptySlot).valid = false ∧
      (PriorityScheduler.new.sleep_task 3 5 .high).1 = true ∧
      ((PriorityScheduler.new.sleep_task 3 5 .high).2.sleeping_tasks.getD 0
          SleepingTask.emptySlot).wake_tick = 5 := by
  refine ⟨by decide, by decide, ?_, ?_⟩
  · rw [(sleep_task_records_first_free_slot PriorityScheduler.new 3 5 .high
        (by decide)).2 0 (by decide) (by decide) (by intro i hi; omega)]
  · rw [(sleep_task_records_first_free_slot PriorityScheduler.new 3 5 .high
        (by decide)).2 0 (by decide) (by decide) (by intro i hi; omega)]
    decide

theorem wakeScan_spec (tick : Nat) (slots : List SleepingTask) (wi : Nat)
    (hcap : slots.length + wi ≤ MAX_TASKS) :
    wakeScan tick wi slots =
      (slots.map (fun sl =>
         if sl.valid = true ∧ sl.wake_tick ≤ tick then { sl with valid := false } else sl),
       (slots.filter (fun sl => sl.valid && decide (sl.wake_tick ≤ tick))).map
         (fun sl => (sl.task_id, sl.priority)),
       (slots.filter (fun sl => sl.valid && decide (sl.wake_tick ≤ tick))).length) := by
  induction slots generalizing wi with
  | nil => rfl
  | cons slot rest ih =>
    rw [List.length_cons] at hcap
    by_cases hcond : slot.valid = true ∧ slot.wake_tick ≤ tick
    · have hwi : wi < MAX_TASKS := by omega
      have hr := ih (wi + 1) (by omega)
      have hpx : (slot.valid && decide (slot.wake_tick ≤ tick)) = true := by
        simp [hcond.1, hcond.2]
      simp only [wakeScan, if_pos hcond, if_pos hwi, hr, List.filter_cons, hpx, if_true,
        List.map_cons, List.length_cons]
    · have hr := ih wi (by omega)
      have hpx : (slot.valid && decide (slot.wake_tick ≤ tick)) = false := by
        cases hv : slot.valid <;> simp_all
      simp only [wakeScan, if_neg hcond, hr, List.filter_cons, hpx, Bool.false_eq_true,
        if_false, List.map_cons]

theorem enqueue_task_fields (s : PriorityScheduler) (t : TaskId) (p : TaskPriority) :
    (s.enqueue_task t p).2.sleeping_tasks = s.sleeping_tasks ∧
      (s.enqueue_task t p).2.current_tick = s.current_tick ∧
      (s.enqueue_task t p).2.preempt_disable_count = s.preempt_disable_count := by
  by_cases h : ((getQ s p.as_index).push_back t).1 = true
  · simp [PriorityScheduler.enqueue_task, h]
  · simp [PriorityScheduler.enqueue_task, h]

theorem enqueueAll_fields (pairs : List (TaskId × TaskPriority)) (s : PriorityScheduler) :
    (enqueueAll s pairs).sleeping_tasks = s.sleeping_tasks ∧
      (enqueueAll s pairs).current_tick = s.current_tick ∧
      (enqueueAll s pairs).preempt_disable_count = s.preempt_disable_count := by
  induction pairs generalizing s with
  | nil => exact ⟨rfl, rfl, rfl⟩
  | cons pr rest ih =>
    obtain ⟨t, p⟩ := pr
    obtain ⟨h1, h2, h3⟩ := ih (s.enqueue_task t p).2
    obtain ⟨g1, g2, g3⟩ := enqueue_task_fields s t p
    exact ⟨h1.trans g1, h2.trans g2, h3.trans g3⟩

theorem enqueueAll_toListQ (pairs : List (TaskId × TaskPriority)) (s : PriorityScheduler)
    (hlen : s.ready_queues.length = 3)
    (hinv : ∀ i : Fin 3, QueueInv (getQ s i.val))
    (hroom : ∀ i : Fin 3,
      (getQ s i.val).count +
        ((pairs.filter fun pr => pr.2.as_index == i.val)).length ≤ MAX_TASKS) :
    ∀ i : Fin 3, (getQ (enqueueAll s pairs) i.val).toListQ =
      (getQ s i.val).toListQ ++
        ((pairs.filter fun pr => pr.2.as_index == i.val)).map Prod.fst := by
  induction pairs generalizing s with
  | nil =>
    intro i
    simp [enqueueAll]
  | cons pr rest ih =>
    obtain ⟨t, p⟩ := pr
    have hpi : p.as_index < 3 := as_index_lt p
    have hroom_p : (getQ s p.as_index).count +
        ((((t, p) :: rest).filter fun pr => pr.2.as_index == p.as_index)).length ≤
          MAX_TASKS := hroom ⟨p.as_index, hpi⟩
    have hfc_self : (((t, p) :: rest).filter fun pr => pr.2.as_index == p.as_index) =
        (t, p) :: (rest.filter fun pr => pr.2.as_index == p.as_index) := by
      simp [List.filter_cons]
    rw [hfc_self, List.length_cons] at hroom_p
    have hcount : (getQ s p.as_index).count < MAX_TASKS := by omega
    obtain ⟨hres, hinv2, htl, hcnt⟩ :=
      push_back_spec (getQ s p.as_index) t (hinv ⟨p.as_index, hpi⟩) hcount
    have hs2 : (s.enqueue_task t p).2 =
        { s with
            ready_queues :=
              s.ready_queues.set p.as_index ((getQ s p.as_index).push_back t).2,
            non_empty_queues := s.non_empty_queues ||| (1 <<< p.as_index) } := by
      rw [enqueue_task_of_room s t p hcount]
    have hgq : ∀ j : Nat, j < 3 → getQ (s.enqueue_task t p).2 j =
        (if p.as_index = j then ((getQ s p.as_index).push_back t).2 else getQ s j) := by
      intro j hj
      rw [hs2]
      show (s.ready_queues.set p.as_index
          ((getQ s p.as_index).push_back t).2).getD j TaskQueue.new = _
      by_cases hpj : p.as_index = j
      · rw [if_pos hpj, ← hpj, list_getD_set_eq _ _ _ _ (by omega)]
      · rw [if_neg hpj, list_getD_set_ne _ _ _ _ _ hpj]
        rfl
    have hlen2 : (s.enqueue_task t p).2.ready_queues.length = 3 := by
      rw [hs2]
      simpa using hlen
    have hinv3 : ∀ i : Fin 3, QueueInv (getQ (s.enqueue_task t p).2 i.val) := by
      intro i
      rw [hgq i.val i.isLt]
      by_cases hpj : p.as_index = i.val
      · rw [if_pos hpj]
        exact hinv2
      · rw [if_neg hpj]
        exact hinv i
    have hroom3 : ∀ i : Fin 3, (getQ (s.enqueue_task t p).2 i.val).count +
        ((rest.filter fun pr => pr.2.as_index == i.val)).length ≤ MAX_TASKS := by
      intro i
      rw [hgq i.val i.isLt]
      by_cases hpj : p.as_index = i.val
      · rw [if_pos hpj, hcnt]
        have hsame : (rest.filter fun pr => pr.2.as_index == i.val) =
            (rest.filter fun pr => pr.2.as_index == p.as_index) := by
          rw [hpj]
        rw [hsame]
        omega
      · rw [if_neg hpj]
        have hro := hroom i
        rw [List.filter_cons] at hro
        have hfalse : (((t, p).2.as_index == i.val) : Bool) = false := by
          simp [hpj]
        rw [hfalse] at hro
        simpa using hro
    have hrec := ih (s.enqueue_task t p).2 hlen2 hinv3 hroom3
    intro i
    show (getQ (enqueueAll (s.enqueue_task t p).2 rest) i.val).toListQ = _
    rw [hrec i, hgq i.val i.isLt]
    by_cases hpj : p.as_index = i.val
    · rw [if_pos hpj]
      have hfc : (((t, p) :: rest).filter fun pr => pr.2.as_index == i.val) =
          (t, p) :: (rest.filter fun pr => pr.2.as_index == i.val) := by
        simp [List.filter_cons, ← hpj]
      rw [hfc, List.map_cons, ← hpj, htl, List.append_assoc]
      rfl
    · rw [if_neg hpj]
      have hfc : (((t, p) :: rest).filter fun pr => pr.2.as_index == i.val) =
          rest.filter fun pr => pr.2.as_index == i.val := by
        simp [List.filter_cons, hpj]
      rw [hfc]

/-- C4 (amended): `wake_sleeping_tasks` invalidates exactly those valid
sleep-table slots whose `wake_tick` is at most `current_tick` (leaving all
other slots, valid or not, unchanged), returns the number of such slots,
and — provided each target ready queue has room for its expired sleepers —
appends each woken task, in table order, to the back of the ready queue of
the priority stored in its slot (never a value re-read from the TCB);
`current_tick` and the preemption counter are untouched. (Without the room
proviso a woken task whose queue is full is dropped, see the
counterexample.) -/
theorem wake_sleeping_tasks_spec (s : PriorityScheduler)
    (hlen : s.ready_queues.length = 3)
    (hslots : s.sleeping_tasks.length ≤ MAX_TASKS)
    (hinv : ∀ i : Fin 3, QueueInv (getQ s i.val))
    (hroom : ∀ i : Fin 3, (getQ s i.val).count + countExpiredAt s i.val ≤ MAX_TASKS) :
    s.wake_sleeping_tasks.1 = (expiredPairs s).length ∧
      s.wake_sleeping_tasks.2.sleeping_tasks =
        s.sleeping_tasks.map (fun sl =>
          if sl.valid = true ∧ sl.wake_tick ≤ s.current_tick
          then { sl with valid := false } else sl) ∧
      (∀ i : Fin 3, (getQ s.wake_sleeping_tasks.2 i.val).toListQ =
        (getQ s i.val).toListQ ++
          (((expiredPairs s).filter fun pr => pr.2.as_index == i.val)).map Prod.fst) ∧
      s.wake_sleeping_tasks.2.current_tick = s.current_tick ∧
      s.wake_sleeping_tasks.2.preempt_disable_count = s.preempt_disable_count := by
  have hscan := wakeScan_spec s.current_tick s.sleeping_tasks 0 (by omega)
  have h1 : s.wake_sleeping_tasks =
      ((s.sleeping_tasks.filter fun sl =>
          sl.valid && decide (sl.wake_tick ≤ s.current_tick)).length,
       enqueueAll
         { s with sleeping_tasks := s.sleeping_tasks.map (fun sl =>
             if sl.valid = true ∧ sl.wake_tick ≤ s.current_tick
             then { sl with valid := false } else sl) }
         ((s.sleeping_tasks.filter fun sl =>
             sl.valid && decide (sl.wake_tick ≤ s.current_tick)).map
           fun sl => (sl.task_id, sl.priority))) := by
    unfold PriorityScheduler.wake_sleeping_tasks
    rw [hscan]
  refine ⟨?_, ?_, ?_, ?_, ?_⟩
  · rw [h1]
    simp [expiredPairs]
  · rw [h1]
    exact (enqueueAll_fields _ _).1
  · intro i
    rw [h1]
    exact enqueueAll_toListQ (expiredPairs s)
      { s with sleeping_tasks := s.sleeping_tasks.map (fun sl =>
          if sl.valid = true ∧ sl.wake_tick ≤ s.current_tick
          then { sl with valid := false } else sl) }
      hlen hinv hroom i
  · rw [h1]
    exact (enqueueAll_fields _ _).2.1
  · rw [h1]
    exact (enqueueAll_fields _ _).2.2

/-- C4 counterexample: at a reachable state whose Normal queue is full
(64 tasks) and whose sleep table holds expired task 99 at Normal priority,
`wake_sleeping_tasks` reports 1 task woken and invalidates the slot, yet
task 99 is re-enqueued into no ready queue — the enqueue silently fails —
so the claim's unconditional "re-enqueues each such task" is false. -/
theorem wake_drops_woken_task_counterexample :
    (fullNormalSleeper.sleeping_tasks.getD 0 SleepingTask.emptySlot).valid = true ∧
      (fullNormalSleeper.sleeping_tasks.getD 0 SleepingTask.emptySlot).wake_tick ≤
        fullNormalSleeper.current_tick ∧
      fullNormalSleeper.wake_sleeping_tasks.1 = 1 ∧
      ((fullNormalSleeper.wake_sleeping_tasks.2).sleeping_tasks.getD 0
          SleepingTask.emptySlot).valid = false ∧
      (getQ fullNormalSleeper.wake_sleeping_tasks.2 0).toListQ.contains 99 = false ∧
      (getQ fullNormalSleeper.wake_sleeping_tasks.2 1).toListQ.contains 99 = false ∧
      (getQ fullNormalSleeper.wake_sleeping_tasks.2 2).toListQ.contains 99 = false := by
  decide

/-- Witness for C4 (amended) at a fresh state with one expired High sleeper
(task 9): one task is woken and lands in the High queue. -/
theorem wake_sleeping_tasks_spec_witness :
    oneSleeperState.ready_queues.length = 3 ∧
      (∀ i : Fin 3,
        (getQ oneSleeperState i.val).count + countExpiredAt oneSleeperState i.val ≤
          MAX_TASKS) ∧
      oneSleeperState.wake_sleeping_tasks.1 = 1 ∧
      (getQ oneSleeperState.wake_sleeping_tasks.2 2).toListQ = [9] := by
  refine ⟨by decide, by decide, ?_, ?_⟩
  · rw [(wake_sleeping_tasks_spec oneSleeperState (by decide) (by decide) (by decide)
        (by decide)).1]
    decide
  · rw [(wake_sleeping_tasks_spec oneSleeperState (by decide) (by decide) (by decide)
        (by decide)).2.2.1 ⟨2, by omega⟩]
    decide
